import Mathlib

/-!
Shallow embedding of the ubo_tilemap example (src/examples/ubo_tilemap/main.rs).

Modelling choices, matching the source construct by construct:
the [f32; 4] tile payload becomes four rationals; the viewport working
buffer (a Vec of w*h TileMapData records, mirrored to the GPU uniform
buffer by update_data) becomes a total function from flat indices to tile
records, written pointwise exactly where the source loops write; the
logical tile Vec stays a List so that out-of-bounds indexing (a Rust
abort) is observable; f32 offset arithmetic becomes exact rational
arithmetic (every concrete value the program manipulates here is exactly
representable); an operation that can reach a Rust abort returns an
Option, with none standing for the abort happening before any result
state exists.
-/

/-- One UBO element: the [f32; 4] payload of struct TileMapData. -/
structure TileMapData where
  d0 : ℚ
  d1 : ℚ
  d2 : ℚ
  d3 : ℚ
deriving DecidableEq

/-- TileMapData::new_empty. -/
def TileMapData.new_empty : TileMapData := ⟨0, 0, 0, 0⟩

/-- TileMapData::new. -/
def TileMapData.new (a b c d : ℚ) : TileMapData := ⟨a, b, c, d⟩

/-- The mutable state of TileMapPlane that the tilemap logic reads or
writes: the working data Vec (here a function on flat indices; the source
allocates w*h entries) and the u_TileOffsets uniform pair. Mesh, shader,
matrix and texture fields are opaque GPU resources that no claim touches. -/
structure TileMapPlane where
  data : ℕ → TileMapData
  offsets : ℚ × ℚ

/-- TileMapPlane::new, state part: w*h empty records, offsets [0.0, 0.0]. -/
def TileMapPlane.new : TileMapPlane :=
  { data := fun _ => TileMapData.new_empty, offsets := (0, 0) }

/-- TileMapPlane::update_x_offset. -/
def TileMapPlane.update_x_offset (p : TileMapPlane) (amt : ℚ) : TileMapPlane :=
  { p with offsets := (amt, p.offsets.2) }

/-- TileMapPlane::update_y_offset. -/
def TileMapPlane.update_y_offset (p : TileMapPlane) (amt : ℚ) : TileMapPlane :=
  { p with offsets := (p.offsets.1, amt) }

/-- struct TileMap. -/
structure TileMap where
  tiles : List TileMapData
  tilemap_plane : TileMapPlane
  tile_size : ℚ
  tilemap_size : ℕ × ℕ
  charmap_size : ℕ × ℕ
  limit_coords : ℕ × ℕ
  focus_coords : ℕ × ℕ

/-- TileMap::new. -/
def TileMap.new (tilemap_size charmap_size : ℕ × ℕ) (tile_size : ℕ) : TileMap :=
  { tiles := List.replicate (tilemap_size.1 * tilemap_size.2) TileMapData.new_empty
    tilemap_plane := TileMapPlane.new
    tile_size := (tile_size : ℚ)
    tilemap_size := tilemap_size
    charmap_size := charmap_size
    limit_coords := (tilemap_size.1 - charmap_size.1, tilemap_size.2 - charmap_size.2)
    focus_coords := (0, 0) }

/-- The nested copy loop inside TileMap::set_focus: for charmap_ypos in
[0, h) and charmap_xpos in [0, w), write
tiles[(focus.1 + charmap_ypos) * W + (focus.0 + charmap_xpos)] into
viewport slot charmap_ypos * w + charmap_xpos. The read is total here
(getD); under the length and size invariants established by TileMap::new
every index read by a successful set_focus is in bounds, so the default is
never produced. -/
def setFocusData (tiles : List TileMapData) (W w h : ℕ) (focus : ℕ × ℕ)
    (dat : ℕ → TileMapData) : ℕ → TileMapData :=
  (List.range h).foldl (fun dat charmap_ypos =>
    (List.range w).foldl (fun dat charmap_xpos j =>
      if j = charmap_ypos * w + charmap_xpos then
        tiles.getD ((focus.2 + charmap_ypos) * W + (focus.1 + charmap_xpos))
          TileMapData.new_empty
      else dat j) dat) dat

/-- TileMap::set_focus: guard against limit_coords, then copy the visible
window and upload it (the upload re-sends exactly the working data, so it
adds nothing to the state model); on a failed guard the source aborts
before any mutation. -/
def TileMap.set_focus (tm : TileMap) (focus : ℕ × ℕ) : Option TileMap :=
  if focus.1 ≤ tm.limit_coords.1 ∧ focus.2 ≤ tm.limit_coords.2 then
    some { tm with
      focus_coords := focus
      tilemap_plane := { tm.tilemap_plane with
        data := setFocusData tm.tiles tm.tilemap_size.1
          tm.charmap_size.1 tm.charmap_size.2 focus tm.tilemap_plane.data } }
  else
    none

/-- TileMap::apply_x_offset. The if cascade computes the pair
(new_x, final new_offset); set_focus runs only when the focus moved, and
update_x_offset stores the final offset afterwards. A set_focus abort
propagates (the source process dies before update_x_offset runs). -/
def TileMap.apply_x_offset (tm : TileMap) (offset_amt : ℚ) : Option TileMap :=
  let new_offset := tm.tilemap_plane.offsets.1 + offset_amt
  let curr_focus := tm.focus_coords
  let r : ℕ × ℚ :=
    if new_offset < 0 then
      if tm.focus_coords.1 = 0 then (0, 0)
      else (tm.focus_coords.1 - 1, tm.tile_size + new_offset)
    else if tm.focus_coords.1 = tm.limit_coords.1 then
      (tm.focus_coords.1, 0)
    else if tm.tile_size ≤ new_offset then
      (tm.focus_coords.1 + 1, new_offset - tm.tile_size)
    else
      (tm.focus_coords.1, new_offset)
  (if r.1 ≠ tm.focus_coords.1 then tm.set_focus (r.1, curr_focus.2) else some tm).map
    (fun t => { t with tilemap_plane := t.tilemap_plane.update_x_offset r.2 })

/-- TileMap::apply_y_offset. The far-edge test in the source is written
against tilemap_size[1] - charmap_size[1] rather than limit_coords[1]
(the two coincide for states built by TileMap::new). -/
def TileMap.apply_y_offset (tm : TileMap) (offset_amt : ℚ) : Option TileMap :=
  let new_offset := tm.tilemap_plane.offsets.2 + offset_amt
  let curr_focus := tm.focus_coords
  let r : ℕ × ℚ :=
    if new_offset < 0 then
      if tm.focus_coords.2 = 0 then (0, 0)
      else (tm.focus_coords.2 - 1, tm.tile_size + new_offset)
    else if tm.focus_coords.2 = tm.tilemap_size.2 - tm.charmap_size.2 then
      (tm.focus_coords.2, 0)
    else if tm.tile_size ≤ new_offset then
      (tm.focus_coords.2 + 1, new_offset - tm.tile_size)
    else
      (tm.focus_coords.2, new_offset)
  (if r.1 ≠ tm.focus_coords.2 then tm.set_focus (curr_focus.1, r.1) else some tm).map
    (fun t => { t with tilemap_plane := t.tilemap_plane.update_y_offset r.2 })

/-- TileMap::calc_idx. -/
def TileMap.calc_idx (tm : TileMap) (xpos ypos : ℕ) : ℕ :=
  ypos * tm.tilemap_size.1 + xpos

/-- TileMap::set_tile: Vec indexing aborts exactly when the flat index is
out of range of the tiles vector; otherwise the record is overwritten. -/
def TileMap.set_tile (tm : TileMap) (xpos ypos : ℕ) (v : TileMapData) : Option TileMap :=
  let idx := tm.calc_idx xpos ypos
  if idx < tm.tiles.length then
    some { tm with tiles := tm.tiles.set idx v }
  else
    none

/-- Iterated apply_x_offset calls, aborting as soon as one call aborts. -/
def TileMap.apply_x_list (tm : TileMap) (ds : List ℚ) : Option TileMap :=
  ds.foldlM TileMap.apply_x_offset tm

/-- Iterated apply_y_offset calls, aborting as soon as one call aborts. -/
def TileMap.apply_y_list (tm : TileMap) (ds : List ℚ) : Option TileMap :=
  ds.foldlM TileMap.apply_y_offset tm

/-- The quad count of the external genmesh Plane generator subdivided into
an a-by-b grid: one quad per grid cell. -/
def planeSubdivideQuadCount (a b : ℕ) : ℕ := a * b

/-- The subdivision TileMapPlane::new actually requests for a viewport of
the given width and height: the source passes (width, width) to
Plane::subdivide. -/
def tileMapPlaneQuadCount (width _height : ℕ) : ℕ :=
  planeSubdivideQuadCount width width

/-- The TileMap instance main() builds: tilemap_size [24, 24],
charmap_size [16, 16], tile_size 32, hence limit_coords [8, 8] and
initial focus [0, 0] with offsets [0, 0]. -/
def demoTM : TileMap := TileMap.new (24, 24) (16, 16) 32

/-- The demo state right after main() calls set_tile(1, 3, [5,0,0,0])
(the only call the spec example needs; getD only unwraps the always
successful in-range write). -/
def c1TM : TileMap :=
  (demoTM.set_tile 1 3 (TileMapData.new 5 0 0 0)).getD demoTM

/-- A demo-sized state one tile in from the left edge, x offset 0. -/
def c2TM : TileMap := { demoTM with focus_coords := (1, 0) }

/-- A demo-sized state at the far right edge with a nonzero x offset 8
(reached, for example, by crossing into focus 8 with offset remainder 8). -/
def c5TM : TileMap :=
  { demoTM with
    focus_coords := (8, 0)
    tilemap_plane := { demoTM.tilemap_plane with offsets := (8, 0) } }

/-- The demo state after a no-move apply_x_offset 1 (x offset becomes 1). -/
def c10xTM : TileMap :=
  { demoTM with tilemap_plane :=
      demoTM.tilemap_plane.update_x_offset (demoTM.tilemap_plane.offsets.1 + 1) }

/-- The demo state after a no-move apply_y_offset 1 (y offset becomes 1). -/
def c10yTM : TileMap :=
  { demoTM with tilemap_plane :=
      demoTM.tilemap_plane.update_y_offset (demoTM.tilemap_plane.offsets.2 + 1) }


/-! ### Generic pointwise-write lemmas for the copy loops -/

lemma foldl_write_apply {A : Type} (g : ℕ → A) (base : ℕ) :
    ∀ (n : ℕ) (dat : ℕ → A) (j : ℕ),
      ((List.range n).foldl (fun dat i k => if k = base + i then g i else dat k) dat) j
        = if base ≤ j ∧ j < base + n then g (j - base) else dat j := by
  intro n
  induction n with
  | zero =>
    intro dat j
    rw [List.range_zero, List.foldl_nil, if_neg (by omega)]
  | succ m ih =>
    intro dat j
    rw [List.range_succ, List.foldl_append, List.foldl_cons, List.foldl_nil]
    by_cases hj : j = base + m
    · subst hj
      rw [if_pos rfl, if_pos (show base ≤ base + m ∧ base + m < base + (m + 1) by omega)]
      congr 1
      omega
    · rw [if_neg hj, ih]
      by_cases hcond : base ≤ j ∧ j < base + m
      · rw [if_pos hcond, if_pos (by omega)]
      · rw [if_neg hcond, if_neg (by omega)]

lemma foldl_rows_apply {A : Type} (G : ℕ → ℕ → A) (w : ℕ) :
    ∀ (h : ℕ) (dat : ℕ → A) (cy cx : ℕ), cy < h → cx < w →
      ((List.range h).foldl (fun dat cy2 =>
          (List.range w).foldl
            (fun dat cx2 k => if k = cy2 * w + cx2 then G cy2 cx2 else dat k) dat)
        dat) (cy * w + cx)
        = G cy cx := by
  intro h
  induction h with
  | zero =>
    intro dat cy cx hcy hcx
    exact absurd hcy (Nat.not_lt_zero cy)
  | succ m ih =>
    intro dat cy cx hcy hcx
    rw [List.range_succ, List.foldl_append, List.foldl_cons, List.foldl_nil]
    rw [foldl_write_apply (G m) (m * w) w _ (cy * w + cx)]
    by_cases hcm : cy = m
    · subst hcm
      rw [if_pos ⟨Nat.le_add_right _ _, Nat.add_lt_add_left hcx _⟩]
      congr 1
      exact Nat.add_sub_cancel_left (cy * w) cx
    · have hcy2 : cy < m := by omega
      have hlt : cy * w + cx < m * w := by
        calc cy * w + cx < cy * w + w := by omega
          _ = (cy + 1) * w := by ring
          _ ≤ m * w := Nat.mul_le_mul_right w (by omega)
      rw [if_neg (fun hcon => absurd hcon.1 (Nat.not_le.mpr hlt))]
      exact ih _ cy cx hcy2 hcx

lemma setFocusData_apply (tiles : List TileMapData) (W w h : ℕ) (focus : ℕ × ℕ)
    (dat : ℕ → TileMapData) (cy cx : ℕ) (hcy : cy < h) (hcx : cx < w) :
    setFocusData tiles W w h focus dat (cy * w + cx)
      = tiles.getD ((focus.2 + cy) * W + (focus.1 + cx)) TileMapData.new_empty := by
  unfold setFocusData
  exact foldl_rows_apply
    (fun cy2 cx2 =>
      tiles.getD ((focus.2 + cy2) * W + (focus.1 + cx2)) TileMapData.new_empty)
    w h dat cy cx hcy hcx

/-! ### set_focus lemmas -/

lemma TileMap.set_focus_eq_some (tm : TileMap) (focus : ℕ × ℕ)
    (h1 : focus.1 ≤ tm.limit_coords.1) (h2 : focus.2 ≤ tm.limit_coords.2) :
    tm.set_focus focus = some { tm with
      focus_coords := focus
      tilemap_plane := { tm.tilemap_plane with
        data := setFocusData tm.tiles tm.tilemap_size.1
          tm.charmap_size.1 tm.charmap_size.2 focus tm.tilemap_plane.data } } := by
  unfold TileMap.set_focus
  rw [if_pos ⟨h1, h2⟩]

lemma TileMap.set_focus_eq_none (tm : TileMap) (focus : ℕ × ℕ)
    (h : tm.limit_coords.1 < focus.1 ∨ tm.limit_coords.2 < focus.2) :
    tm.set_focus focus = none := by
  unfold TileMap.set_focus
  rw [if_neg (by omega)]

lemma TileMap.set_focus_some_inv {tm : TileMap} {focus : ℕ × ℕ} {tm2 : TileMap}
    (h : tm.set_focus focus = some tm2) :
    tm2.focus_coords = focus ∧
    focus.1 ≤ tm.limit_coords.1 ∧ focus.2 ≤ tm.limit_coords.2 ∧
    tm2.tiles = tm.tiles ∧
    tm2.tilemap_plane.offsets = tm.tilemap_plane.offsets ∧
    tm2.tile_size = tm.tile_size ∧ tm2.tilemap_size = tm.tilemap_size ∧
    tm2.charmap_size = tm.charmap_size ∧ tm2.limit_coords = tm.limit_coords := by
  unfold TileMap.set_focus at h
  by_cases hc : focus.1 ≤ tm.limit_coords.1 ∧ focus.2 ≤ tm.limit_coords.2
  · rw [if_pos hc] at h
    injection h with h
    subst h
    exact ⟨rfl, hc.1, hc.2, rfl, rfl, rfl, rfl, rfl, rfl⟩
  · rw [if_neg hc] at h
    exact Option.noConfusion h

/-! ### apply_x_offset branch lemmas -/

lemma TileMap.apply_x_offset_clamp_zero (tm : TileMap) (d : ℚ)
    (h0 : tm.tilemap_plane.offsets.1 + d < 0)
    (hf : tm.focus_coords.1 = 0) :
    tm.apply_x_offset d
      = some { tm with tilemap_plane := tm.tilemap_plane.update_x_offset 0 } := by
  simp only [TileMap.apply_x_offset]
  rw [if_pos h0, if_pos hf]
  rw [if_neg (show ¬ ((0, (0 : ℚ)).1 ≠ tm.focus_coords.1) by omega)]
  rfl

lemma TileMap.apply_x_offset_wrap_back (tm : TileMap) (d : ℚ)
    (h0 : tm.tilemap_plane.offsets.1 + d < 0)
    (hf : ¬ tm.focus_coords.1 = 0)
    (hx : tm.focus_coords.1 - 1 ≤ tm.limit_coords.1)
    (hy : tm.focus_coords.2 ≤ tm.limit_coords.2) :
    tm.apply_x_offset d = some { tm with
      focus_coords := (tm.focus_coords.1 - 1, tm.focus_coords.2)
      tilemap_plane := { tm.tilemap_plane with
        data := setFocusData tm.tiles tm.tilemap_size.1 tm.charmap_size.1 tm.charmap_size.2
          (tm.focus_coords.1 - 1, tm.focus_coords.2) tm.tilemap_plane.data
        offsets := (tm.tile_size + (tm.tilemap_plane.offsets.1 + d),
          tm.tilemap_plane.offsets.2) } } := by
  simp only [TileMap.apply_x_offset]
  rw [if_pos h0, if_neg hf]
  rw [if_pos (show ((tm.focus_coords.1 - 1,
    tm.tile_size + (tm.tilemap_plane.offsets.1 + d)).1 ≠ tm.focus_coords.1) by
      simp only []; omega)]
  rw [TileMap.set_focus_eq_some tm
    ((tm.focus_coords.1 - 1, tm.tile_size + (tm.tilemap_plane.offsets.1 + d)).1,
      tm.focus_coords.2) hx hy]
  rfl

lemma TileMap.apply_x_offset_clamp_far (tm : TileMap) (d : ℚ)
    (h0 : ¬ tm.tilemap_plane.offsets.1 + d < 0)
    (hL : tm.focus_coords.1 = tm.limit_coords.1) :
    tm.apply_x_offset d
      = some { tm with tilemap_plane := tm.tilemap_plane.update_x_offset 0 } := by
  simp only [TileMap.apply_x_offset]
  rw [if_neg h0, if_pos hL]
  rw [if_neg (show ¬ ((tm.focus_coords.1, (0 : ℚ)).1 ≠ tm.focus_coords.1) by
    simp only []; omega)]
  rfl

lemma TileMap.apply_x_offset_cross (tm : TileMap) (d : ℚ)
    (h0 : ¬ tm.tilemap_plane.offsets.1 + d < 0)
    (hL : ¬ tm.focus_coords.1 = tm.limit_coords.1)
    (hT : tm.tile_size ≤ tm.tilemap_plane.offsets.1 + d)
    (hx : tm.focus_coords.1 + 1 ≤ tm.limit_coords.1)
    (hy : tm.focus_coords.2 ≤ tm.limit_coords.2) :
    tm.apply_x_offset d = some { tm with
      focus_coords := (tm.focus_coords.1 + 1, tm.focus_coords.2)
      tilemap_plane := { tm.tilemap_plane with
        data := setFocusData tm.tiles tm.tilemap_size.1 tm.charmap_size.1 tm.charmap_size.2
          (tm.focus_coords.1 + 1, tm.focus_coords.2) tm.tilemap_plane.data
        offsets := (tm.tilemap_plane.offsets.1 + d - tm.tile_size,
          tm.tilemap_plane.offsets.2) } } := by
  simp only [TileMap.apply_x_offset]
  rw [if_neg h0, if_neg hL, if_pos hT]
  rw [if_pos (show ((tm.focus_coords.1 + 1,
    tm.tilemap_plane.offsets.1 + d - tm.tile_size).1 ≠ tm.focus_coords.1) by
      simp only []; omega)]
  rw [TileMap.set_focus_eq_some tm
    ((tm.focus_coords.1 + 1, tm.tilemap_plane.offsets.1 + d - tm.tile_size).1,
      tm.focus_coords.2) hx hy]
  rfl

lemma TileMap.apply_x_offset_no_move (tm : TileMap) (d : ℚ)
    (h0 : ¬ tm.tilemap_plane.offsets.1 + d < 0)
    (hL : ¬ tm.focus_coords.1 = tm.limit_coords.1)
    (hT : ¬ tm.tile_size ≤ tm.tilemap_plane.offsets.1 + d) :
    tm.apply_x_offset d = some { tm with
      tilemap_plane :=
        tm.tilemap_plane.update_x_offset (tm.tilemap_plane.offsets.1 + d) } := by
  simp only [TileMap.apply_x_offset]
  rw [if_neg h0, if_neg hL, if_neg hT]
  rw [if_neg (show ¬ ((tm.focus_coords.1,
    tm.tilemap_plane.offsets.1 + d).1 ≠ tm.focus_coords.1) by simp only []; omega)]
  rfl

/-! ### apply_y_offset branch lemmas -/

lemma TileMap.apply_y_offset_clamp_zero (tm : TileMap) (d : ℚ)
    (h0 : tm.tilemap_plane.offsets.2 + d < 0)
    (hf : tm.focus_coords.2 = 0) :
    tm.apply_y_offset d
      = some { tm with tilemap_plane := tm.tilemap_plane.update_y_offset 0 } := by
  simp only [TileMap.apply_y_offset]
  rw [if_pos h0, if_pos hf]
  rw [if_neg (show ¬ ((0, (0 : ℚ)).1 ≠ tm.focus_coords.2) by omega)]
  rfl

lemma TileMap.apply_y_offset_wrap_back (tm : TileMap) (d : ℚ)
    (h0 : tm.tilemap_plane.offsets.2 + d < 0)
    (hf : ¬ tm.focus_coords.2 = 0)
    (hx : tm.focus_coords.1 ≤ tm.limit_coords.1)
    (hy : tm.focus_coords.2 - 1 ≤ tm.limit_coords.2) :
    tm.apply_y_offset d = some { tm with
      focus_coords := (tm.focus_coords.1, tm.focus_coords.2 - 1)
      tilemap_plane := { tm.tilemap_plane with
        data := setFocusData tm.tiles tm.tilemap_size.1 tm.charmap_size.1 tm.charmap_size.2
          (tm.focus_coords.1, tm.focus_coords.2 - 1) tm.tilemap_plane.data
        offsets := (tm.tilemap_plane.offsets.1,
          tm.tile_size + (tm.tilemap_plane.offsets.2 + d)) } } := by
  simp only [TileMap.apply_y_offset]
  rw [if_pos h0, if_neg hf]
  rw [if_pos (show ((tm.focus_coords.2 - 1,
    tm.tile_size + (tm.tilemap_plane.offsets.2 + d)).1 ≠ tm.focus_coords.2) by
      simp only []; omega)]
  rw [TileMap.set_focus_eq_some tm
    (tm.focus_coords.1,
      (tm.focus_coords.2 - 1, tm.tile_size + (tm.tilemap_plane.offsets.2 + d)).1) hx hy]
  rfl

lemma TileMap.apply_y_offset_clamp_far (tm : TileMap) (d : ℚ)
    (h0 : ¬ tm.tilemap_plane.offsets.2 + d < 0)
    (hL : tm.focus_coords.2 = tm.tilemap_size.2 - tm.charmap_size.2) :
    tm.apply_y_offset d
      = some { tm with tilemap_plane := tm.tilemap_plane.update_y_offset 0 } := by
  simp only [TileMap.apply_y_offset]
  rw [if_neg h0, if_pos hL]
  rw [if_neg (show ¬ ((tm.focus_coords.2, (0 : ℚ)).1 ≠ tm.focus_coords.2) by
    simp only []; omega)]
  rfl

lemma TileMap.apply_y_offset_cross (tm : TileMap) (d : ℚ)
    (h0 : ¬ tm.tilemap_plane.offsets.2 + d < 0)
    (hL : ¬ tm.focus_coords.2 = tm.tilemap_size.2 - tm.charmap_size.2)
    (hT : tm.tile_size ≤ tm.tilemap_plane.offsets.2 + d)
    (hx : tm.focus_coords.1 ≤ tm.limit_coords.1)
    (hy : tm.focus_coords.2 + 1 ≤ tm.limit_coords.2) :
    tm.apply_y_offset d = some { tm with
      focus_coords := (tm.focus_coords.1, tm.focus_coords.2 + 1)
      tilemap_plane := { tm.tilemap_plane with
        data := setFocusData tm.tiles tm.tilemap_size.1 tm.charmap_size.1 tm.charmap_size.2
          (tm.focus_coords.1, tm.focus_coords.2 + 1) tm.tilemap_plane.data
        offsets := (tm.tilemap_plane.offsets.1,
          tm.tilemap_plane.offsets.2 + d - tm.tile_size) } } := by
  simp only [TileMap.apply_y_offset]
  rw [if_neg h0, if_neg hL, if_pos hT]
  rw [if_pos (show ((tm.focus_coords.2 + 1,
    tm.tilemap_plane.offsets.2 + d - tm.tile_size).1 ≠ tm.focus_coords.2) by
      simp only []; omega)]
  rw [TileMap.set_focus_eq_some tm
    (tm.focus_coords.1,
      (tm.focus_coords.2 + 1, tm.tilemap_plane.offsets.2 + d - tm.tile_size).1) hx hy]
  rfl

lemma TileMap.apply_y_offset_no_move (tm : TileMap) (d : ℚ)
    (h0 : ¬ tm.tilemap_plane.offsets.2 + d < 0)
    (hL : ¬ tm.focus_coords.2 = tm.tilemap_size.2 - tm.charmap_size.2)
    (hT : ¬ tm.tile_size ≤ tm.tilemap_plane.offsets.2 + d) :
    tm.apply_y_offset d = some { tm with
      tilemap_plane :=
        tm.tilemap_plane.update_y_offset (tm.tilemap_plane.offsets.2 + d) } := by
  simp only [TileMap.apply_y_offset]
  rw [if_neg h0, if_neg hL, if_neg hT]
  rw [if_neg (show ¬ ((tm.focus_coords.2,
    tm.tilemap_plane.offsets.2 + d).1 ≠ tm.focus_coords.2) by simp only []; omega)]
  rfl

/-! ### Frame lemmas: what a successful apply call cannot change -/

lemma TileMap.step_x_inv {tm t : TileMap} {q : ℕ × ℚ}
    (hstep : (if q.1 ≠ tm.focus_coords.1 then tm.set_focus (q.1, tm.focus_coords.2)
      else some tm) = some t) :
    t.tiles = tm.tiles ∧ t.focus_coords.2 = tm.focus_coords.2 ∧
    t.tilemap_plane.offsets = tm.tilemap_plane.offsets ∧
    t.tile_size = tm.tile_size ∧ t.tilemap_size = tm.tilemap_size ∧
    t.charmap_size = tm.charmap_size ∧ t.limit_coords = tm.limit_coords ∧
    (t.focus_coords.1 = tm.focus_coords.1 ∨ t.focus_coords.1 ≤ tm.limit_coords.1) := by
  split at hstep
  · obtain ⟨hfoc, hb1, _, htiles, hoff, hts, htms, hcms, hlim⟩ :=
      TileMap.set_focus_some_inv hstep
    refine ⟨htiles, ?_, hoff, hts, htms, hcms, hlim, Or.inr ?_⟩
    · rw [hfoc]
    · rw [hfoc]; exact hb1
  · injection hstep with hstep
    subst hstep
    exact ⟨rfl, rfl, rfl, rfl, rfl, rfl, rfl, Or.inl rfl⟩

lemma TileMap.step_y_inv {tm t : TileMap} {q : ℕ × ℚ}
    (hstep : (if q.1 ≠ tm.focus_coords.2 then tm.set_focus (tm.focus_coords.1, q.1)
      else some tm) = some t) :
    t.tiles = tm.tiles ∧ t.focus_coords.1 = tm.focus_coords.1 ∧
    t.tilemap_plane.offsets = tm.tilemap_plane.offsets ∧
    t.tile_size = tm.tile_size ∧ t.tilemap_size = tm.tilemap_size ∧
    t.charmap_size = tm.charmap_size ∧ t.limit_coords = tm.limit_coords ∧
    (t.focus_coords.2 = tm.focus_coords.2 ∨ t.focus_coords.2 ≤ tm.limit_coords.2) := by
  split at hstep
  · obtain ⟨hfoc, _, hb2, htiles, hoff, hts, htms, hcms, hlim⟩ :=
      TileMap.set_focus_some_inv hstep
    refine ⟨htiles, ?_, hoff, hts, htms, hcms, hlim, Or.inr ?_⟩
    · rw [hfoc]
    · rw [hfoc]; exact hb2
  · injection hstep with hstep
    subst hstep
    exact ⟨rfl, rfl, rfl, rfl, rfl, rfl, rfl, Or.inl rfl⟩

lemma TileMap.apply_x_offset_some_inv {tm : TileMap} {d : ℚ} {tm2 : TileMap}
    (h : tm.apply_x_offset d = some tm2) :
    tm2.tiles = tm.tiles ∧
    tm2.focus_coords.2 = tm.focus_coords.2 ∧
    tm2.tilemap_plane.offsets.2 = tm.tilemap_plane.offsets.2 ∧
    tm2.tile_size = tm.tile_size ∧ tm2.tilemap_size = tm.tilemap_size ∧
    tm2.charmap_size = tm.charmap_size ∧ tm2.limit_coords = tm.limit_coords ∧
    (tm2.focus_coords.1 = tm.focus_coords.1 ∨
      tm2.focus_coords.1 ≤ tm.limit_coords.1) := by
  simp only [TileMap.apply_x_offset] at h
  obtain ⟨t, hstep, rfl⟩ := Option.map_eq_some'.mp h
  obtain ⟨htiles, hfoc2, hoff, hts, htms, hcms, hlim, hfoc1⟩ := TileMap.step_x_inv hstep
  refine ⟨htiles, hfoc2, ?_, hts, htms, hcms, hlim, hfoc1⟩
  show t.tilemap_plane.offsets.2 = tm.tilemap_plane.offsets.2
  rw [hoff]

lemma TileMap.apply_y_offset_some_inv {tm : TileMap} {d : ℚ} {tm2 : TileMap}
    (h : tm.apply_y_offset d = some tm2) :
    tm2.tiles = tm.tiles ∧
    tm2.focus_coords.1 = tm.focus_coords.1 ∧
    tm2.tilemap_plane.offsets.1 = tm.tilemap_plane.offsets.1 ∧
    tm2.tile_size = tm.tile_size ∧ tm2.tilemap_size = tm.tilemap_size ∧
    tm2.charmap_size = tm.charmap_size ∧ tm2.limit_coords = tm.limit_coords ∧
    (tm2.focus_coords.2 = tm.focus_coords.2 ∨
      tm2.focus_coords.2 ≤ tm.limit_coords.2) := by
  simp only [TileMap.apply_y_offset] at h
  obtain ⟨t, hstep, rfl⟩ := Option.map_eq_some'.mp h
  obtain ⟨htiles, hfoc1, hoff, hts, htms, hcms, hlim, hfoc2⟩ := TileMap.step_y_inv hstep
  refine ⟨htiles, hfoc1, ?_, hts, htms, hcms, hlim, hfoc2⟩
  show t.tilemap_plane.offsets.1 = tm.tilemap_plane.offsets.1
  rw [hoff]

/-! ### Claim theorems -/

/-- C1: for every valid focus f (componentwise at most limit_coords), after
set_focus f the viewport buffer cell at index cy * w + cx equals the
logical tile at index (f.2 + cy) * W + (f.1 + cx), for all cx < w and
cy < h. -/
theorem set_focus_copies_window (tm : TileMap) (f : ℕ × ℕ) (cx cy : ℕ)
    (hf1 : f.1 ≤ tm.limit_coords.1) (hf2 : f.2 ≤ tm.limit_coords.2)
    (hcx : cx < tm.charmap_size.1) (hcy : cy < tm.charmap_size.2) :
    ∃ tm2, tm.set_focus f = some tm2 ∧
      tm2.tilemap_plane.data (cy * tm.charmap_size.1 + cx)
        = tm.tiles.getD ((f.2 + cy) * tm.tilemap_size.1 + (f.1 + cx))
            TileMapData.new_empty := by
  refine ⟨_, tm.set_focus_eq_some f hf1 hf2, ?_⟩
  exact setFocusData_apply tm.tiles tm.tilemap_size.1 tm.charmap_size.1
    tm.charmap_size.2 f tm.tilemap_plane.data cy cx hcy hcx

set_option maxRecDepth 8000 in
/-- C1 witness, which is exactly the example in the claim: after
set_tile(1, 3, [5,0,0,0]) and set_focus([0,0]) with w = 16, the viewport
buffer at index 3 * 16 + 1 holds the payload [5,0,0,0]. -/
theorem set_focus_copies_window_witness :
    ∃ tm2, c1TM.set_focus (0, 0) = some tm2 ∧
      tm2.tilemap_plane.data (3 * 16 + 1) = TileMapData.new 5 0 0 0 := by
  obtain ⟨tm2, h1, h2⟩ := set_focus_copies_window c1TM (0, 0) 1 3
    (Nat.zero_le _) (Nat.zero_le _) (by decide) (by decide)
  refine ⟨tm2, h1, ?_⟩
  show tm2.tilemap_plane.data (3 * c1TM.charmap_size.1 + 1) = TileMapData.new 5 0 0 0
  rw [h2]
  rfl

/-- C9: for every focus with focus.1 > limit_coords.1 or
focus.2 > limit_coords.2, set_focus aborts producing no successor state
(the guard precedes every mutation, so nothing is modified). -/
theorem set_focus_out_of_bounds_aborts (tm : TileMap) (f : ℕ × ℕ)
    (h : tm.limit_coords.1 < f.1 ∨ tm.limit_coords.2 < f.2) :
    tm.set_focus f = none :=
  tm.set_focus_eq_none f h

/-- C9 witness: in the demo state (limit_coords [8, 8]) asking for focus
[9, 0] aborts. -/
theorem set_focus_out_of_bounds_aborts_witness :
    demoTM.set_focus (9, 0) = none :=
  set_focus_out_of_bounds_aborts demoTM (9, 0) (Or.inl (by decide))

/-- C7: with the demo configuration (W = H = 24, w = h = 16,
tile_size = 32, limit_coords [8, 8]), starting at focus [0, 0] and x
offset 0, a single apply_x_offset 40 yields focus [1, 0] and stored x
offset 8. -/
theorem apply_x_offset_forty_example :
    ∃ tm2, demoTM.apply_x_offset 40 = some tm2 ∧
      tm2.focus_coords = (1, 0) ∧ tm2.tilemap_plane.offsets.1 = 8 := by
  refine ⟨_, TileMap.apply_x_offset_cross demoTM 40
    (by show ¬ (0 : ℚ) + 40 < 0; norm_num)
    (by decide)
    (by show (32 : ℚ) ≤ 0 + 40; norm_num)
    (by decide) (by decide), ?_, ?_⟩
  · decide
  · show (0 : ℚ) + 40 - 32 = 8
    norm_num

/-- C8: the claim says the plane mesh is subdivided into w * h quads for
every viewport width w and height h, but TileMapPlane::new passes
(width, width) to the subdivision, so for the failing input
width 16, height 8 the mesh has 16 * 16 = 256 quads, not 16 * 8 = 128. -/
theorem plane_subdivision_mismatch :
    tileMapPlaneQuadCount 16 8 = 256 ∧ tileMapPlaneQuadCount 16 8 ≠ 16 * 8 := by
  constructor <;> decide

/-- C5 counterexample: at the far edge (focus [8, 0] = limit, stored x
offset 8), a backward delta of -4 has 0 <= 8 + (-4) < 32, so the claim
predicts a pure sub-tile pan to offset 4; the code instead clamps the
offset to 0 (its far-edge branch never looks at the direction of travel). -/
theorem far_edge_backward_pan_counterexample :
    ∃ tm2, c5TM.apply_x_offset (-4) = some tm2 ∧
      tm2.focus_coords = c5TM.focus_coords ∧
      tm2.tilemap_plane.offsets.1 = 0 ∧
      c5TM.tilemap_plane.offsets.1 + (-4) ≠ tm2.tilemap_plane.offsets.1 := by
  refine ⟨_, TileMap.apply_x_offset_clamp_far c5TM (-4)
    (by show ¬ (8 : ℚ) + (-4) < 0; norm_num) (by decide), ?_, ?_, ?_⟩
  · rfl
  · rfl
  · show (8 : ℚ) + (-4) ≠ 0
    norm_num

/-- C5 amended: at the far edge (focus.1 = limit_coords.1), whenever the
accumulated offset o + delta is nonnegative — regardless of the direction
of delta — apply_x_offset clamps the stored offset to exactly 0 and leaves
the focus unchanged; there is no pure sub-tile pan at the far edge. -/
theorem far_edge_clamps_nonneg (tm : TileMap) (d : ℚ)
    (hL : tm.focus_coords.1 = tm.limit_coords.1)
    (h0 : 0 ≤ tm.tilemap_plane.offsets.1 + d) :
    tm.apply_x_offset d
      = some { tm with tilemap_plane := tm.tilemap_plane.update_x_offset 0 } :=
  tm.apply_x_offset_clamp_far d (not_lt.mpr h0) hL

/-- C5 amended witness at the concrete far-edge state and delta -4. -/
theorem far_edge_clamps_nonneg_witness :
    c5TM.apply_x_offset (-4)
      = some { c5TM with tilemap_plane := c5TM.tilemap_plane.update_x_offset 0 } :=
  far_edge_clamps_nonneg c5TM (-4) (by decide)
    (by show (0 : ℚ) ≤ 8 + (-4); norm_num)

set_option maxRecDepth 8000 in
/-- C6 counterexample: with the demo grid (W = 24, tiles length 576)
set_tile(24, 0, [5,0,0,0]) has x = 24 >= W, yet the flat index
0 * 24 + 24 = 24 is still inside the tiles vector, so the call succeeds
and silently writes logical cell index 24 instead of aborting. -/
theorem set_tile_out_of_range_silent_write :
    24 ≥ demoTM.tilemap_size.1 ∧
    ∃ tm2, demoTM.set_tile 24 0 (TileMapData.new 5 0 0 0) = some tm2 ∧
      tm2.tiles.getD 24 TileMapData.new_empty = TileMapData.new 5 0 0 0 := by
  refine ⟨by decide, ⟨{ demoTM with
      tiles := demoTM.tiles.set (demoTM.calc_idx 24 0) (TileMapData.new 5 0 0 0) },
    ?_, ?_⟩⟩
  · simp only [TileMap.set_tile]
    rw [if_pos (by decide)]
  · rfl

/-- C6 amended: set_tile aborts exactly when the flattened index
y * W + x falls outside the tiles vector (of length W * H); any call whose
flattened index is still in range — including calls with x >= W whose
excess x aliases into a later row — silently overwrites the record at that
flattened index. -/
theorem set_tile_guard_iff (tm : TileMap) (x y : ℕ) (v : TileMapData) :
    (tm.tiles.length ≤ tm.calc_idx x y → tm.set_tile x y v = none) ∧
    (tm.calc_idx x y < tm.tiles.length →
      tm.set_tile x y v = some { tm with tiles := tm.tiles.set (tm.calc_idx x y) v }) := by
  constructor
  · intro h
    simp only [TileMap.set_tile]
    rw [if_neg (Nat.not_lt.mpr h)]
  · intro h
    simp only [TileMap.set_tile]
    rw [if_pos h]

set_option maxRecDepth 8000 in
/-- C6 amended witness: on the demo grid, set_tile(0, 24, _) has flat
index 576 and aborts, while the in-range set_tile(2, 3, [7,0,0,0]) writes
flat index 74. -/
theorem set_tile_guard_iff_witness :
    demoTM.set_tile 0 24 (TileMapData.new 5 0 0 0) = none ∧
    demoTM.set_tile 2 3 (TileMapData.new 7 0 0 0)
      = some { demoTM with
          tiles := demoTM.tiles.set (demoTM.calc_idx 2 3) (TileMapData.new 7 0 0 0) } := by
  constructor
  · exact (set_tile_guard_iff demoTM 0 24 (TileMapData.new 5 0 0 0)).1 (by decide)
  · exact (set_tile_guard_iff demoTM 2 3 (TileMapData.new 7 0 0 0)).2 (by decide)

/-- C10: a successful apply_x_offset never modifies focus_coords.2, the y
offset uniform, or the logical tiles vector; symmetrically a successful
apply_y_offset never modifies focus_coords.1, the x offset uniform, or the
tiles vector. -/
theorem apply_offset_frame (tm : TileMap) (d : ℚ) :
    (∀ tm2, tm.apply_x_offset d = some tm2 →
      tm2.focus_coords.2 = tm.focus_coords.2 ∧
      tm2.tilemap_plane.offsets.2 = tm.tilemap_plane.offsets.2 ∧
      tm2.tiles = tm.tiles) ∧
    (∀ tm2, tm.apply_y_offset d = some tm2 →
      tm2.focus_coords.1 = tm.focus_coords.1 ∧
      tm2.tilemap_plane.offsets.1 = tm.tilemap_plane.offsets.1 ∧
      tm2.tiles = tm.tiles) := by
  constructor
  · intro tm2 h
    obtain ⟨ht, hf, ho, _⟩ := TileMap.apply_x_offset_some_inv h
    exact ⟨hf, ho, ht⟩
  · intro tm2 h
    obtain ⟨ht, hf, ho, _⟩ := TileMap.apply_y_offset_some_inv h
    exact ⟨hf, ho, ht⟩

/-- C10 witness at the demo state with delta 1 on each axis. -/
theorem apply_offset_frame_witness :
    (c10xTM.focus_coords.2 = demoTM.focus_coords.2 ∧
      c10xTM.tilemap_plane.offsets.2 = demoTM.tilemap_plane.offsets.2 ∧
      c10xTM.tiles = demoTM.tiles) ∧
    (c10yTM.focus_coords.1 = demoTM.focus_coords.1 ∧
      c10yTM.tilemap_plane.offsets.1 = demoTM.tilemap_plane.offsets.1 ∧
      c10yTM.tiles = demoTM.tiles) := by
  constructor
  · exact (apply_offset_frame demoTM 1).1 c10xTM
      (TileMap.apply_x_offset_no_move demoTM 1
        (by show ¬ (0 : ℚ) + 1 < 0; norm_num)
        (by decide)
        (by show ¬ (32 : ℚ) ≤ 0 + 1; norm_num))
  · exact (apply_offset_frame demoTM 1).2 c10yTM
      (TileMap.apply_y_offset_no_move demoTM 1
        (by show ¬ (0 : ℚ) + 1 < 0; norm_num)
        (by decide)
        (by show ¬ (32 : ℚ) ≤ 0 + 1; norm_num))

/-- C2 counterexample: from the valid state focus [1, 0] with stored x
offset 0 (inside [0, 32)), the single call apply_x_offset (-33) leaves the
stored offset at 32 + (0 - 33) = -1, which is outside [0, tile_size) and
not the claimed edge clamp to 0 either. -/
theorem offset_range_counterexample :
    (0 : ℚ) ≤ c2TM.tilemap_plane.offsets.1 ∧
    c2TM.tilemap_plane.offsets.1 < c2TM.tile_size ∧
    c2TM.focus_coords.1 ≤ c2TM.limit_coords.1 ∧
    c2TM.focus_coords.2 ≤ c2TM.limit_coords.2 ∧
    ∃ tm2, c2TM.apply_x_offset (-33) = some tm2 ∧
      tm2.tilemap_plane.offsets.1 < 0 := by
  refine ⟨by show (0 : ℚ) ≤ 0; norm_num, by show (0 : ℚ) < 32; norm_num,
    by decide, by decide, _,
    TileMap.apply_x_offset_wrap_back c2TM (-33)
      (by show (0 : ℚ) + (-33) < 0; norm_num) (by decide) (by decide) (by decide),
    ?_⟩
  show (32 : ℚ) + ((0 : ℚ) + (-33)) < 0
  norm_num

/-- C2 amended: for every current offset o with 0 <= o < tile_size, every
focus within limits (in a state whose limit_coords are the construction
values), and every delta whose accumulated value o + delta stays within
[-tile_size, 2 * tile_size), the call succeeds and the stored sub-tile
offset lands in [0, tile_size); at a grid edge (backward at focus 0,
forward at focus = limit) it is clamped to exactly 0. Deltas of larger
magnitude can leave the offset outside that range, as the counterexample
shows. -/
theorem offset_stays_in_range (tm : TileMap) (d : ℚ)
    (hlim : tm.limit_coords
      = (tm.tilemap_size.1 - tm.charmap_size.1, tm.tilemap_size.2 - tm.charmap_size.2))
    (hf1 : tm.focus_coords.1 ≤ tm.limit_coords.1)
    (hf2 : tm.focus_coords.2 ≤ tm.limit_coords.2)
    (hT : 0 < tm.tile_size) :
    (0 ≤ tm.tilemap_plane.offsets.1 → tm.tilemap_plane.offsets.1 < tm.tile_size →
      -tm.tile_size ≤ tm.tilemap_plane.offsets.1 + d →
      tm.tilemap_plane.offsets.1 + d < 2 * tm.tile_size →
      ∃ tm2, tm.apply_x_offset d = some tm2 ∧
        0 ≤ tm2.tilemap_plane.offsets.1 ∧
        tm2.tilemap_plane.offsets.1 < tm.tile_size ∧
        (tm.focus_coords.1 = 0 ∧ tm.tilemap_plane.offsets.1 + d < 0 →
          tm2.tilemap_plane.offsets.1 = 0) ∧
        (tm.focus_coords.1 = tm.limit_coords.1 ∧ 0 ≤ tm.tilemap_plane.offsets.1 + d →
          tm2.tilemap_plane.offsets.1 = 0)) ∧
    (0 ≤ tm.tilemap_plane.offsets.2 → tm.tilemap_plane.offsets.2 < tm.tile_size →
      -tm.tile_size ≤ tm.tilemap_plane.offsets.2 + d →
      tm.tilemap_plane.offsets.2 + d < 2 * tm.tile_size →
      ∃ tm2, tm.apply_y_offset d = some tm2 ∧
        0 ≤ tm2.tilemap_plane.offsets.2 ∧
        tm2.tilemap_plane.offsets.2 < tm.tile_size ∧
        (tm.focus_coords.2 = 0 ∧ tm.tilemap_plane.offsets.2 + d < 0 →
          tm2.tilemap_plane.offsets.2 = 0) ∧
        (tm.focus_coords.2 = tm.limit_coords.2 ∧ 0 ≤ tm.tilemap_plane.offsets.2 + d →
          tm2.tilemap_plane.offsets.2 = 0)) := by
  have hlim2 : tm.limit_coords.2 = tm.tilemap_size.2 - tm.charmap_size.2 := by
    rw [hlim]
  constructor
  · intro ho0 hoT hlo hhi
    by_cases hneg : tm.tilemap_plane.offsets.1 + d < 0
    · by_cases hz : tm.focus_coords.1 = 0
      · refine ⟨_, TileMap.apply_x_offset_clamp_zero tm d hneg hz,
          le_refl 0, hT, fun _ => rfl, fun _ => rfl⟩
      · have hx : tm.focus_coords.1 - 1 ≤ tm.limit_coords.1 := by omega
        refine ⟨_, TileMap.apply_x_offset_wrap_back tm d hneg hz hx hf2, ?_, ?_, ?_, ?_⟩
        · show 0 ≤ tm.tile_size + (tm.tilemap_plane.offsets.1 + d)
          linarith
        · show tm.tile_size + (tm.tilemap_plane.offsets.1 + d) < tm.tile_size
          linarith
        · intro hcon
          exact absurd hcon.1 hz
        · intro hcon
          linarith [hcon.2]
    · by_cases hL : tm.focus_coords.1 = tm.limit_coords.1
      · refine ⟨_, TileMap.apply_x_offset_clamp_far tm d hneg hL,
          le_refl 0, hT, ?_, fun _ => rfl⟩
        intro hcon
        exact absurd hcon.2 hneg
      · by_cases hcr : tm.tile_size ≤ tm.tilemap_plane.offsets.1 + d
        · have hx : tm.focus_coords.1 + 1 ≤ tm.limit_coords.1 := by omega
          refine ⟨_, TileMap.apply_x_offset_cross tm d hneg hL hcr hx hf2, ?_, ?_, ?_, ?_⟩
          · show 0 ≤ tm.tilemap_plane.offsets.1 + d - tm.tile_size
            linarith
          · show tm.tilemap_plane.offsets.1 + d - tm.tile_size < tm.tile_size
            linarith
          · intro hcon
            exact absurd hcon.2 hneg
          · intro hcon
            exact absurd hcon.1 hL
        · refine ⟨_, TileMap.apply_x_offset_no_move tm d hneg hL hcr, ?_, ?_, ?_, ?_⟩
          · show 0 ≤ tm.tilemap_plane.offsets.1 + d
            linarith
          · show tm.tilemap_plane.offsets.1 + d < tm.tile_size
            linarith
          · intro hcon
            exact absurd hcon.2 hneg
          · intro hcon
            exact absurd hcon.1 hL
  · intro ho0 hoT hlo hhi
    by_cases hneg : tm.tilemap_plane.offsets.2 + d < 0
    · by_cases hz : tm.focus_coords.2 = 0
      · refine ⟨_, TileMap.apply_y_offset_clamp_zero tm d hneg hz,
          le_refl 0, hT, fun _ => rfl, fun _ => rfl⟩
      · have hy : tm.focus_coords.2 - 1 ≤ tm.limit_coords.2 := by omega
        refine ⟨_, TileMap.apply_y_offset_wrap_back tm d hneg hz hf1 hy, ?_, ?_, ?_, ?_⟩
        · show 0 ≤ tm.tile_size + (tm.tilemap_plane.offsets.2 + d)
          linarith
        · show tm.tile_size + (tm.tilemap_plane.offsets.2 + d) < tm.tile_size
          linarith
        · intro hcon
          exact absurd hcon.1 hz
        · intro hcon
          linarith [hcon.2]
    · by_cases hL : tm.focus_coords.2 = tm.tilemap_size.2 - tm.charmap_size.2
      · refine ⟨_, TileMap.apply_y_offset_clamp_far tm d hneg hL,
          le_refl 0, hT, ?_, fun _ => rfl⟩
        intro hcon
        exact absurd hcon.2 hneg
      · by_cases hcr : tm.tile_size ≤ tm.tilemap_plane.offsets.2 + d
        · have hy : tm.focus_coords.2 + 1 ≤ tm.limit_coords.2 := by omega
          refine ⟨_, TileMap.apply_y_offset_cross tm d hneg hL hcr hf1 hy, ?_, ?_, ?_, ?_⟩
          · show 0 ≤ tm.tilemap_plane.offsets.2 + d - tm.tile_size
            linarith
          · show tm.tilemap_plane.offsets.2 + d - tm.tile_size < tm.tile_size
            linarith
          · intro hcon
            exact absurd hcon.2 hneg
          · intro hcon
            exact absurd (hcon.1.trans hlim2) hL
        · refine ⟨_, TileMap.apply_y_offset_no_move tm d hneg hL hcr, ?_, ?_, ?_, ?_⟩
          · show 0 ≤ tm.tilemap_plane.offsets.2 + d
            linarith
          · show tm.tilemap_plane.offsets.2 + d < tm.tile_size
            linarith
          · intro hcon
            exact absurd hcon.2 hneg
          · intro hcon
            exact absurd (hcon.1.trans hlim2) hL

/-- C2 amended witness at the demo state with delta 5 on the x axis. -/
theorem offset_stays_in_range_witness :
    ∃ tm2, demoTM.apply_x_offset 5 = some tm2 ∧
      0 ≤ tm2.tilemap_plane.offsets.1 ∧
      tm2.tilemap_plane.offsets.1 < demoTM.tile_size := by
  obtain ⟨tm2, heq, h1, h2, _, _⟩ := (offset_stays_in_range demoTM 5 (by decide)
    (by decide) (by decide) (by show (0 : ℚ) < 32; norm_num)).1
    (by show (0 : ℚ) ≤ 0; norm_num) (by show (0 : ℚ) < 32; norm_num)
    (by show -(32 : ℚ) ≤ 0 + 5; norm_num) (by show (0 : ℚ) + 5 < 2 * 32; norm_num)
  exact ⟨tm2, heq, h1, h2⟩

/-- C3: starting from any state whose focus obeys the bounds invariant
(focus componentwise at most limit_coords), every operation that returns a
successor state — apply_x_offset, apply_y_offset, set_focus, set_tile —
yields a state that still obeys it: forward accumulation at the limit
clamps rather than incrementing past it, and backward accumulation at 0
clamps rather than decrementing below 0 (focus coordinates are naturals,
and the focus = 0 branch pins the coordinate to 0). -/
theorem focus_bounds_preserved (tm : TileMap) (d : ℚ) (f : ℕ × ℕ) (x y : ℕ)
    (v : TileMapData)
    (hf1 : tm.focus_coords.1 ≤ tm.limit_coords.1)
    (hf2 : tm.focus_coords.2 ≤ tm.limit_coords.2) :
    (∀ tm2, tm.apply_x_offset d = some tm2 →
      tm2.focus_coords.1 ≤ tm2.limit_coords.1 ∧
      tm2.focus_coords.2 ≤ tm2.limit_coords.2) ∧
    (∀ tm2, tm.apply_y_offset d = some tm2 →
      tm2.focus_coords.1 ≤ tm2.limit_coords.1 ∧
      tm2.focus_coords.2 ≤ tm2.limit_coords.2) ∧
    (∀ tm2, tm.set_focus f = some tm2 →
      tm2.focus_coords.1 ≤ tm2.limit_coords.1 ∧
      tm2.focus_coords.2 ≤ tm2.limit_coords.2) ∧
    (∀ tm2, tm.set_tile x y v = some tm2 →
      tm2.focus_coords.1 ≤ tm2.limit_coords.1 ∧
      tm2.focus_coords.2 ≤ tm2.limit_coords.2) := by
  refine ⟨?_, ?_, ?_, ?_⟩
  · intro tm2 h
    obtain ⟨_, hfo2, _, _, _, _, hlim, hfo1⟩ := TileMap.apply_x_offset_some_inv h
    rw [hlim, hfo2]
    rcases hfo1 with he | hle
    · rw [he]
      exact ⟨hf1, hf2⟩
    · exact ⟨hle, hf2⟩
  · intro tm2 h
    obtain ⟨_, hfo1, _, _, _, _, hlim, hfo2⟩ := TileMap.apply_y_offset_some_inv h
    rw [hlim, hfo1]
    rcases hfo2 with he | hle
    · rw [he]
      exact ⟨hf1, hf2⟩
    · exact ⟨hf1, hle⟩
  · intro tm2 h
    obtain ⟨hfoc, hb1, hb2, _, _, _, _, _, hlim⟩ := TileMap.set_focus_some_inv h
    rw [hlim, hfoc]
    exact ⟨hb1, hb2⟩
  · intro tm2 h
    simp only [TileMap.set_tile] at h
    by_cases hc : tm.calc_idx x y < tm.tiles.length
    · rw [if_pos hc] at h
      injection h with h
      subst h
      exact ⟨hf1, hf2⟩
    · rw [if_neg hc] at h
      exact Option.noConfusion h

/-- C3 witness: the state after a no-move apply_x_offset 1 from the demo
state still satisfies the focus bounds. -/
theorem focus_bounds_preserved_witness :
    c10xTM.focus_coords.1 ≤ c10xTM.limit_coords.1 ∧
    c10xTM.focus_coords.2 ≤ c10xTM.limit_coords.2 :=
  (focus_bounds_preserved demoTM 1 (0, 0) 0 0 TileMapData.new_empty
    (by decide) (by decide)).1 c10xTM
    (TileMap.apply_x_offset_no_move demoTM 1
      (by show ¬ (0 : ℚ) + 1 < 0; norm_num) (by decide)
      (by show ¬ (32 : ℚ) ≤ 0 + 1; norm_num))

/-- Auxiliary induction for C4: with the focus strictly inside the x
limit, a nonempty run of positive deltas whose sum tops the current
nonnegative offset up to exactly tile_size performs one focus increment
and ends with stored offset 0. -/
lemma apply_x_list_cross_aux :
    ∀ (ds : List ℚ) (tm : TileMap),
      ds ≠ [] →
      tm.focus_coords.1 < tm.limit_coords.1 →
      tm.focus_coords.2 ≤ tm.limit_coords.2 →
      0 ≤ tm.tilemap_plane.offsets.1 →
      (∀ d ∈ ds, 0 < d) →
      tm.tilemap_plane.offsets.1 + ds.sum = tm.tile_size →
      ∃ tm2, tm.apply_x_list ds = some tm2 ∧
        tm2.focus_coords.1 = tm.focus_coords.1 + 1 ∧
        tm2.focus_coords.2 = tm.focus_coords.2 ∧
        tm2.tilemap_plane.offsets.1 = 0 := by
  intro ds
  induction ds with
  | nil =>
    intro tm hne _ _ _ _ _
    exact absurd rfl hne
  | cons d ds ih =>
    intro tm _ hf1 hf2 hoff hpos hsum
    have hd : 0 < d := hpos d (List.mem_cons_self d ds)
    rw [List.sum_cons] at hsum
    by_cases hds : ds = []
    · subst hds
      rw [List.sum_nil, add_zero] at hsum
      have h0 : ¬ tm.tilemap_plane.offsets.1 + d < 0 := by linarith
      have hL : ¬ tm.focus_coords.1 = tm.limit_coords.1 := by omega
      have hT : tm.tile_size ≤ tm.tilemap_plane.offsets.1 + d := by linarith
      have hx : tm.focus_coords.1 + 1 ≤ tm.limit_coords.1 := by omega
      have happ := TileMap.apply_x_offset_cross tm d h0 hL hT hx hf2
      refine ⟨?tm2, ?heq, ?hq1, ?hq2, ?hq3⟩
      case heq =>
        simp only [TileMap.apply_x_list, List.foldlM_cons, List.foldlM_nil, bind_pure]
        exact happ
      case hq1 => rfl
      case hq2 => rfl
      case hq3 =>
        show tm.tilemap_plane.offsets.1 + d - tm.tile_size = 0
        linarith
    · have hsum_pos : 0 < ds.sum :=
        List.sum_pos ds (fun e he => hpos e (List.mem_cons_of_mem d he)) hds
      have h0 : ¬ tm.tilemap_plane.offsets.1 + d < 0 := by linarith
      have hL : ¬ tm.focus_coords.1 = tm.limit_coords.1 := by omega
      have hT : ¬ tm.tile_size ≤ tm.tilemap_plane.offsets.1 + d := by linarith
      have happ := TileMap.apply_x_offset_no_move tm d h0 hL hT
      obtain ⟨tm2, hlist, hfo1, hfo2, hoffz⟩ := ih
        { tm with tilemap_plane :=
            tm.tilemap_plane.update_x_offset (tm.tilemap_plane.offsets.1 + d) }
        hds hf1 hf2
        (by show 0 ≤ tm.tilemap_plane.offsets.1 + d; linarith)
        (fun e he => hpos e (List.mem_cons_of_mem d he))
        (by show tm.tilemap_plane.offsets.1 + d + ds.sum = tm.tile_size; linarith)
      refine ⟨tm2, ?_, ?_, ?_, hoffz⟩
      · simp only [TileMap.apply_x_list, List.foldlM_cons]
        rw [happ]
        exact hlist
      · rw [hfo1]
      · rw [hfo2]

/-- C4: starting from sub-tile x offset 0 with focus.1 strictly below
limit_coords.1 and positive tile size, any nonempty sequence of positive
deltas summing to exactly tile_size yields exactly one increment of
focus.1 (focus.2 unchanged) and a final stored offset of exactly 0. -/
theorem repeated_offsets_sum_tile_size (tm : TileMap) (ds : List ℚ)
    (hf1 : tm.focus_coords.1 < tm.limit_coords.1)
    (hf2 : tm.focus_coords.2 ≤ tm.limit_coords.2)
    (hoff : tm.tilemap_plane.offsets.1 = 0)
    (hT : 0 < tm.tile_size)
    (hpos : ∀ d ∈ ds, 0 < d)
    (hsum : ds.sum = tm.tile_size) :
    ∃ tm2, tm.apply_x_list ds = some tm2 ∧
      tm2.focus_coords.1 = tm.focus_coords.1 + 1 ∧
      tm2.focus_coords.2 = tm.focus_coords.2 ∧
      tm2.tilemap_plane.offsets.1 = 0 := by
  have hne : ds ≠ [] := by
    intro h
    rw [h, List.sum_nil] at hsum
    exact absurd hsum.symm (ne_of_gt hT)
  exact apply_x_list_cross_aux ds tm hne hf1 hf2 (by simp [hoff]) hpos
    (by rw [hoff, zero_add, hsum])

/-- C4 witness: from the demo state, the two deltas 16 and 16 sum to the
tile size 32, produce focus x 0 + 1 and final offset 0. -/
theorem repeated_offsets_sum_tile_size_witness :
    ∃ tm2, demoTM.apply_x_list [16, 16] = some tm2 ∧
      tm2.focus_coords.1 = demoTM.focus_coords.1 + 1 ∧
      tm2.focus_coords.2 = demoTM.focus_coords.2 ∧
      tm2.tilemap_plane.offsets.1 = 0 :=
  repeated_offsets_sum_tile_size demoTM [16, 16] (by decide) (by decide) rfl
    (by show (0 : ℚ) < 32; norm_num)
    (by intro e he; fin_cases he <;> norm_num)
    (by show (16 : ℚ) + (16 + 0) = 32; norm_num)
